import Mathlib

/-!
# go-concurrency-exercises: session cleaner and service-time limiter

A shallow embedding of `5-session-cleaner/main.go` (the `SessionManager`, its
three operations and the background `sessionCleaner`) and of
`3-limit-service-time/main.go` (`HandleRequest`).

Modelling conventions.

* A Go `map[string]T` is an `AList` keyed by `String`: a finite map with unique
  keys whose entry order is unspecified.  `m[k] = v` is `AList.insert`,
  `delete(m, k)` is `AList.erase`, `v, ok := m[k]` is `AList.lookup`.
* `interface{}` is a type parameter `V`.
* `time.Time` is a reading of the monotonic clock in nanoseconds (`Int`);
  `time.Duration` is a count of nanoseconds.  Every call of `time.Now()` is an
  explicit argument of the operation that makes it.
* `MakeSessionID` is declared in another file of the package and draws on a
  random source; the pair it returns is an argument of `CreateSession`.
* `sync.Mutex` appears in the step-level model of the second half of the file,
  where each operation is the sequence of its statements and a scheduler
  interleaves them.  The state-passing functions of the first half describe an
  operation that runs from start to end without interference.
-/

namespace SessionCleaner

/-! ## Time -/

/-- Monotonic clock reading, in nanoseconds. -/
abbrev Time := Int

/-- Go `time.Duration`: a signed count of nanoseconds. -/
abbrev Duration := Int

/-- Go `time.Second`. -/
def Second : Duration := 1000000000

/-- Largest `time.Duration` (`1<<63 - 1`). -/
def maxDuration : Duration := 9223372036854775807

/-- Smallest `time.Duration` (`-1 << 63`). -/
def minDuration : Duration := -9223372036854775808

/-- Go `time.Since(t)` evaluated when the clock reads `now`: the difference
`now - t`, saturated to the range of `time.Duration`. -/
def Since (now t : Time) : Duration :=
  if maxDuration < now - t then maxDuration
  else if now - t < minDuration then minDuration
  else now - t

/-- Go `Duration.Seconds`: `sec := d / Second; nsec := d % Second;
float64(sec) + float64(nsec)/1e9`, with Go's truncating division.  The value is
kept as an exact rational; the rounding of `float64` moves it by less than
`1e-15`, far below the `1e-9` that separates two durations, so the comparison
with `5` in the cleaner is not affected. -/
def Seconds (d : Duration) : ℚ :=
  ((Int.tdiv d Second : Int) : ℚ) + ((Int.tmod d Second : Int) : ℚ) / 1000000000

/-- The cleaner's test `time.Since(lastUpdate).Seconds() >= 5`, with `now` the
clock reading taken by `time.Since`. -/
def expired (now lastUpdate : Time) : Bool :=
  decide (5 ≤ Seconds (Since now lastUpdate))

/-- The age at which the cleaner removes a session: the `5` of
`Seconds() >= 5`, as a duration. -/
def TTL : Duration := 5 * Second

/-- The period of the cleaner's ticker, `time.NewTicker(time.Second)`. -/
def tickPeriod : Duration := Second

/-! ## Data model -/

/-- Go `error` values that the session manager returns: its own
`ErrSessionNotFound`, or whatever error `MakeSessionID` produced. -/
inductive GoError where
  | ErrSessionNotFound
  | other (msg : String)
  deriving DecidableEq, Repr

/-- A payload, Go `map[string]interface{}`. -/
abbrev Payload (V : Type) := AList (fun _ : String => V)

/-- Go `type Session struct { Data map[string]interface{} }`. -/
structure Session (V : Type) where
  Data : Payload V

/-- Go `type SessionManager struct { sessions; sessionTimes; mu }`.  The mutex is a
field of the step-level configuration `Shared` below. -/
structure SessionManager (V : Type) where
  sessions : AList (fun _ : String => Session V)
  sessionTimes : AList (fun _ : String => Time)

/-- Go `NewSessionManager`: two empty maps.  The cleaner goroutine it starts is
represented by the sweeps that occur in a run. -/
def NewSessionManager {V : Type} : SessionManager V :=
  { sessions := ∅, sessionTimes := ∅ }

/-! ## The cleaner -/

/-- The body of the cleaner's `range m.sessionTimes` loop, run over the keys
`ids` that the iteration still has to reach.  A key that is no longer in the
map when its turn comes is not produced (Go's rule for entries removed during
iteration); otherwise the entry is tested and, when expired, deleted from both
maps.  `clock id` is the reading `time.Since` takes while visiting `id`. -/
def sweepLoop {V : Type} (clock : String → Time) :
    List String → SessionManager V → SessionManager V
  | [], m => m
  | sessionID :: rest, m =>
    match m.sessionTimes.lookup sessionID with
    | none => sweepLoop clock rest m
    | some lastUpdate =>
      if expired (clock sessionID) lastUpdate then
        sweepLoop clock rest
          { sessionTimes := m.sessionTimes.erase sessionID
            sessions := m.sessions.erase sessionID }
      else
        sweepLoop clock rest m

/-- One iteration of the outer `for` of `sessionCleaner`, after the tick has
arrived: lock, range over `m.sessionTimes`, unlock. -/
def sessionCleaner {V : Type} (clock : String → Time) (m : SessionManager V) :
    SessionManager V :=
  sweepLoop clock m.sessionTimes.keys m

/-! ## The three operations -/

/-- Go `CreateSession`.  `gen` is the pair returned by `MakeSessionID()`, `now` the
reading of `time.Now()`. -/
def CreateSession {V : Type} (gen : String × Option GoError) (now : Time)
    (m : SessionManager V) : (String × Option GoError) × SessionManager V :=
  match gen with
  | (_, some err) => (("", some err), m)
  | (sessionID, none) =>
    ((sessionID, none),
      { sessions := m.sessions.insert sessionID { Data := ∅ }
        sessionTimes := m.sessionTimes.insert sessionID now })

/-- Go `GetSessionData`. -/
def GetSessionData {V : Type} (sessionID : String) (m : SessionManager V) :
    Except GoError (Payload V) × SessionManager V :=
  match m.sessions.lookup sessionID with
  | none => (.error .ErrSessionNotFound, m)
  | some session => (.ok session.Data, m)

/-- Go `UpdateSessionData`; the result is the returned `error` (`none` is `nil`).
`now` is the reading of `time.Now()`. -/
def UpdateSessionData {V : Type} (sessionID : String) (data : Payload V) (now : Time)
    (m : SessionManager V) : Option GoError × SessionManager V :=
  match m.sessions.lookup sessionID with
  | none => (some .ErrSessionNotFound, m)
  | some _ =>
    (none,
      { sessions := m.sessions.insert sessionID { Data := data }
        sessionTimes := m.sessionTimes.insert sessionID now })

/-! ## Runs of whole operations -/

/-- One whole operation on the store, or one sweep of the cleaner. -/
inductive Op (V : Type) where
  | create (gen : String × Option GoError) (now : Time)
  | get (sessionID : String)
  | update (sessionID : String) (data : Payload V) (now : Time)
  | sweep (clock : String → Time)

/-- The store after one operation. -/
def applyOp {V : Type} (m : SessionManager V) : Op V → SessionManager V
  | .create gen now => (CreateSession gen now m).2
  | .get sessionID => (GetSessionData sessionID m).2
  | .update sessionID data now => (UpdateSessionData sessionID data now m).2
  | .sweep clock => sessionCleaner clock m

/-- The store after a sequence of operations, first to last. -/
def run {V : Type} (ops : List (Op V)) (m : SessionManager V) : SessionManager V :=
  ops.foldl applyOp m

/-- A store state that some sequence of operations produces from
`NewSessionManager`. -/
def Reachable {V : Type} (m : SessionManager V) : Prop :=
  ∃ ops : List (Op V), run ops NewSessionManager = m

/-- The payload map and the timestamp map have the same keys. -/
def keysInSync {V : Type} (m : SessionManager V) : Prop :=
  ∀ k : String, k ∈ m.sessions ↔ k ∈ m.sessionTimes

/-- The operation may write the timestamp of `k`: an update of `k`, or a
creation for which the generator returned `k`. -/
def Op.setsTime {V : Type} (k : String) : Op V → Prop
  | .create gen _ => gen = (k, none)
  | .update sessionID _ _ => sessionID = k
  | _ => False

/-- The cleaner sweeps once every `P` as far as key `k` is concerned: every
closed window of length `P` inside `[start, stop]` holds the clock reading of
some sweep of the run. -/
def sweepsEvery {V : Type} (P : Duration) (ops : List (Op V)) (k : String)
    (start stop : Time) : Prop :=
  ∀ t : Time, start ≤ t → t + P ≤ stop →
    ∃ clock : String → Time, Op.sweep clock ∈ ops ∧ t ≤ clock k ∧ clock k ≤ t + P

/-- The payload that `main` builds: `data["website"] = "longhoang.de"`. -/
def mainData : Payload String :=
  (∅ : Payload String).insert "website" "longhoang.de"

/-- The store of `main` once its `CreateSession` and its `UpdateSessionData`
have returned, when the generator gave `sID` and both calls read the clock at
`now`. -/
def mainStore (sID : String) (now : Time) : SessionManager String :=
  run [Op.create (sID, none) now, Op.update sID mainData now] NewSessionManager

/-! ## Step-level model with the mutex -/

/-- What a finished call hands back. -/
inductive Ret (V : Type) where
  | create (r : String × Option GoError)
  | get (r : Except GoError (Payload V))
  | update (err : Option GoError)

/-- The statements of the four functions, one constructor per kind. -/
inductive Stmt (V : Type) where
  /-- Statement `sessionID, err := MakeSessionID()`; touches no shared state. -/
  | makeSessionID
  /-- Statement `m.mu.Lock()`. -/
  | lock
  /-- Statement `m.mu.Unlock()`. -/
  | unlock
  /-- Statement `session, ok := m.sessions[sessionID]`. -/
  | lookup (sessionID : String)
  /-- Statement `if !ok { return r }`. -/
  | retIfNotOk (r : Ret V)
  /-- Statement `m.sessions[sessionID] = s`. -/
  | setSession (sessionID : String) (s : Session V)
  /-- Statement `m.sessionTimes[sessionID] = time.Now()`. -/
  | setTime (sessionID : String) (now : Time)
  /-- The `range m.sessionTimes` loop of the cleaner. -/
  | sweep (clock : String → Time)
  /-- Statement `return session.Data, nil`. -/
  | retData
  /-- Statement `return r`. -/
  | ret (r : Ret V)

/-- The statement reads or writes one of the two maps. -/
def Stmt.touchesMaps {V : Type} : Stmt V → Bool
  | .lookup _ => true
  | .setSession _ _ => true
  | .setTime _ _ => true
  | .sweep _ => true
  | _ => false

/-- The statements of `UpdateSessionData`, in source order: the existence test
of lines 107-110 comes first, `m.mu.Lock()` only after it. -/
def UpdateSessionDataCode {V : Type} (sessionID : String) (data : Payload V) (now : Time) :
    List (Stmt V) :=
  [ .lookup sessionID,
    .retIfNotOk (.update (some .ErrSessionNotFound)),
    .lock,
    .setSession sessionID { Data := data },
    .setTime sessionID now,
    .unlock,
    .ret (.update none) ]

/-- The statements of `GetSessionData`, in source order. -/
def GetSessionDataCode {V : Type} (sessionID : String) : List (Stmt V) :=
  [ .lock,
    .lookup sessionID,
    .unlock,
    .retIfNotOk (.get (.error .ErrSessionNotFound)),
    .retData ]

/-- The statements of `CreateSession`, in source order; `gen` is what
`MakeSessionID()` returns. -/
def CreateSessionCode {V : Type} (gen : String × Option GoError) (now : Time) :
    List (Stmt V) :=
  .makeSessionID ::
    match gen with
    | (_, some err) => [ .ret (.create ("", some err)) ]
    | (sessionID, none) =>
      [ .lock,
        .setSession sessionID { Data := ∅ },
        .setTime sessionID now,
        .unlock,
        .ret (.create (sessionID, none)) ]

/-- The statements of one iteration of the cleaner's outer loop, after the
tick has been received. -/
def sessionCleanerCode {V : Type} (clock : String → Time) : List (Stmt V) :=
  [ .lock, .sweep clock, .unlock ]

/-- The memory all goroutines share: the two maps and the mutex.  `mu` records
which goroutine holds the mutex, `none` when it is free. -/
structure Shared (V : Type) where
  store : SessionManager V
  mu : Option Nat

/-- A goroutine in the middle of a call: the statements it still has to run,
its locals `session, ok` (`none` stands for `ok = false`), and the value it
returned once it has. -/
structure Thread (V : Type) where
  code : List (Stmt V)
  session : Option (Session V)
  result : Option (Ret V)

/-- A goroutine about to run `code`. -/
def Thread.start {V : Type} (code : List (Stmt V)) : Thread V :=
  { code := code, session := none, result := none }

/-- Goroutine `tid` runs its next statement; `none` when it has none left or
when it waits for the mutex. -/
def stepThread {V : Type} (tid : Nat) (sh : Shared V) (th : Thread V) :
    Option (Shared V × Thread V) :=
  match th.code with
  | [] => none
  | .makeSessionID :: rest => some (sh, { th with code := rest })
  | .lock :: rest =>
    match sh.mu with
    | none => some ({ sh with mu := some tid }, { th with code := rest })
    | some _ => none
  | .unlock :: rest => some ({ sh with mu := none }, { th with code := rest })
  | .lookup sessionID :: rest =>
    some (sh, { th with code := rest, session := sh.store.sessions.lookup sessionID })
  | .retIfNotOk r :: rest =>
    match th.session with
    | none => some (sh, { th with code := [], result := some r })
    | some _ => some (sh, { th with code := rest })
  | .setSession sessionID s :: rest =>
    some ({ sh with store := { sh.store with sessions := sh.store.sessions.insert sessionID s } },
      { th with code := rest })
  | .setTime sessionID now :: rest =>
    some ({ sh with store :=
              { sh.store with sessionTimes := sh.store.sessionTimes.insert sessionID now } },
      { th with code := rest })
  | .sweep clock :: rest =>
    some ({ sh with store := sessionCleaner clock sh.store }, { th with code := rest })
  | .retData :: _ =>
    match th.session with
    | none => none
    | some session => some (sh, { th with code := [], result := some (.get (.ok session.Data)) })
  | .ret r :: _ => some (sh, { th with code := [], result := some r })

/-- The shared memory together with the goroutines, indexed by position. -/
structure Config (V : Type) where
  shared : Shared V
  threads : List (Thread V)

/-- The scheduler lets goroutine `tid` run one statement. -/
def Config.step {V : Type} (c : Config V) (tid : Nat) : Option (Config V) :=
  match c.threads.get? tid with
  | none => none
  | some th =>
    match stepThread tid c.shared th with
    | none => none
    | some (sh, th') => some { shared := sh, threads := c.threads.set tid th' }

/-- The configuration after the scheduler has followed `schedule`, one
goroutine index per statement; `none` when the schedule picks a goroutine
that cannot move. -/
def runSchedule {V : Type} : List Nat → Config V → Option (Config V)
  | [], c => some c
  | tid :: rest, c =>
    match c.step tid with
    | none => none
    | some c' => runSchedule rest c'

/-- Goroutine `tid` runs alone until it has no statement left, for at most
`fuel` statements. -/
def runAlone {V : Type} (tid : Nat) : Nat → Shared V → Thread V → Option (Shared V × Thread V)
  | 0, sh, th =>
    match th.code with
    | [] => some (sh, th)
    | _ :: _ => none
  | fuel + 1, sh, th =>
    match th.code with
    | [] => some (sh, th)
    | _ :: _ =>
      match stepThread tid sh th with
      | none => none
      | some (sh', th') => runAlone tid fuel sh' th'

/-- Every statement of `code` that reads or writes a map runs while the
goroutine holds the mutex; `held` says whether it holds it when `code` starts. -/
def lockDiscipline {V : Type} : Bool → List (Stmt V) → Bool
  | _, [] => true
  | _, .lock :: rest => lockDiscipline true rest
  | _, .unlock :: rest => lockDiscipline false rest
  | held, s :: rest => (!s.touchesMaps || held) && lockDiscipline held rest

/-- Two goroutines on the store of `main`, whose entry `sID` was written at
clock `0`: goroutine `0` calls `UpdateSessionData(sID, {})` and reads the clock
at `5.000000001s`; goroutine `1` is the cleaner, whose tick comes at `5s`. -/
def raceConfig (sID : String) : Config String :=
  { shared := { store := mainStore sID 0, mu := none }
    threads :=
      [ Thread.start (UpdateSessionDataCode sID (∅ : Payload String) 5000000001),
        Thread.start (sessionCleanerCode (fun _ => 5000000000)) ] }

end SessionCleaner

namespace LimitServiceTime

/-- Go `atomic.Uint64` holds values below `2^64`; `Add` wraps. -/
def uint64Modulus : Nat := 18446744073709551616

/-- Go `type User struct { ID int; IsPremium bool; TimeUsed atomic.Uint64 }`.  A
value of this type is the state of the one `User` that every call made for
that user reaches through its `*User`. -/
structure User where
  ID : Int
  IsPremium : Bool
  TimeUsed : Nat
  deriving DecidableEq, Repr

/-- What happens to the shared `User` while one call of `HandleRequest` runs,
seen from that call.

* `tick between`: the call's `select` receives from `ticker.C`; the call runs
  `u.TimeUsed.Add(1)`, then `between` calls of `Add(1)` by other calls on the
  same user land, then the call runs `u.TimeUsed.Load()`.
* `other`: another call on the same user runs its `u.TimeUsed.Add(1)` while
  this call is not between its `Add` and its `Load`.
* `completed`: the call's `select` receives from `completed`. -/
inductive Event where
  | tick (between : Nat)
  | other
  | completed
  deriving DecidableEq, Repr

/-- Go `u.TimeUsed.Add(1)`, by this call or by another one. -/
def addTick (u : User) : User :=
  { u with TimeUsed := (u.TimeUsed + 1) % uint64Modulus }

/-- Go `HandleRequest`, driven by the events of the call in order.  The first
argument of the result is the returned `bool`, or `none` when the events end
while the loop is still waiting; the second is the shared user at that
moment.  In the `tick` case `u1` is the user after this call's `Add(1)` and
`u2` the user that `Load()` and the read of `IsPremium` see. -/
def HandleRequest : List Event → User → Option Bool × User
  | [], u => (none, u)
  | .tick between :: rest, u =>
    let u1 := addTick u
    let u2 := addTick^[between] u1
    if 10 < u2.TimeUsed && !u2.IsPremium then (some false, u2)
    else HandleRequest rest u2
  | .other :: rest, u => HandleRequest rest (addTick u)
  | .completed :: _, u => (some true, u)

/-- The number of `Add(1)` that the events make on the shared counter, this
call's own and those of other calls. -/
def adds : List Event → Nat
  | [] => 0
  | .tick between :: rest => 1 + between + adds rest
  | .other :: rest => 1 + adds rest
  | .completed :: rest => adds rest

/-- Before the process completes, a tick occurs for a non-premium user whose
`TimeUsed`, as loaded after the increment, is greater than 10: the events
split as `pre ++ tick between :: post` with no completion in `pre`, and the
counter after the `adds pre` increments of `pre`, the call's own increment and
the `between` increments of other calls is above 10. -/
def overBudgetTick (u : User) (evs : List Event) : Prop :=
  u.IsPremium = false ∧
    ∃ (pre : List Event) (between : Nat) (post : List Event),
      evs = pre ++ Event.tick between :: post ∧ Event.completed ∉ pre ∧
        10 < (u.TimeUsed + (adds pre + 1 + between)) % uint64Modulus

/-- The events of request 3 in `RunMockServer`, a six-second process started
for user 0 when the counter holds 3: requests 1 and 4 of the same user tick
around its own ticks. -/
def mockRequest3 : List Event :=
  [ .other, .tick 0, .other, .tick 0, .other, .other, .tick 0, .other, .tick 0,
    .other, .tick 0, .other, .tick 0, .completed ]

end LimitServiceTime

/-! # Theorems -/

namespace SessionCleaner

/-! ## Time: the expiry test in integer form -/

theorem Seconds_eq (d : Duration) : Seconds d = (d : ℚ) / 1000000000 := by
  unfold Seconds Second
  have h := Int.tdiv_add_tmod d 1000000000
  have hq : (d : ℚ) =
      1000000000 * ((Int.tdiv d 1000000000 : Int) : ℚ) + ((Int.tmod d 1000000000 : Int) : ℚ) := by
    exact_mod_cast h.symm
  rw [hq]; field_simp; ring

theorem expired_iff (now t : Time) : expired now t = true ↔ t + TTL ≤ now := by
  unfold expired TTL
  rw [decide_eq_true_iff, Seconds_eq, le_div_iff₀ (by norm_num)]
  unfold Since maxDuration minDuration Second
  unfold Time Duration at *
  split_ifs with h1 h2
  · constructor
    · intro _; omega
    · intro _; norm_num
  · constructor
    · intro h; norm_num at h
    · intro h; omega
  · constructor
    · intro h
      have : (5000000000 : Int) ≤ now - t := by exact_mod_cast h
      omega
    · intro h
      have : (5000000000 : Int) ≤ now - t := by omega
      exact_mod_cast this

theorem expired_eq_false_iff (now t : Time) : expired now t = false ↔ now < t + TTL := by
  rw [← Bool.not_eq_true, expired_iff]
  exact not_le

/-! ## The cleaner's loop, key by key -/

theorem sweepLoop_sessionTimes {V : Type} (clock : String → Time) (k : String) :
    ∀ (ids : List String) (m : SessionManager V),
      (sweepLoop clock ids m).sessionTimes.lookup k =
        if k ∈ ids then
          (match m.sessionTimes.lookup k with
            | none => none
            | some t => if expired (clock k) t then none else some t)
        else m.sessionTimes.lookup k := by
  intro ids
  induction ids with
  | nil => intro m; simp [sweepLoop]
  | cons id rest ih =>
    intro m
    by_cases hk : k = id
    · subst hk
      simp only [sweepLoop, List.mem_cons, true_or, if_true]
      cases hl : m.sessionTimes.lookup k with
      | none => simp [ih, hl]
      | some t =>
        by_cases he : expired (clock k) t = true
        · simp [ih, hl, he]
        · simp [ih, hl, he]
    · have hne : k ≠ id := hk
      simp only [sweepLoop, List.mem_cons, hk, false_or]
      cases hl : m.sessionTimes.lookup id with
      | none => simp [ih]
      | some t =>
        by_cases he : expired (clock id) t = true
        · simp [ih, he, AList.lookup_erase_ne hne]
        · simp [ih, he]

theorem sweepLoop_sessions {V : Type} (clock : String → Time) (k : String) :
    ∀ (ids : List String) (m : SessionManager V),
      (sweepLoop clock ids m).sessions.lookup k =
        if k ∈ ids then
          (match m.sessionTimes.lookup k with
            | none => m.sessions.lookup k
            | some t => if expired (clock k) t then none else m.sessions.lookup k)
        else m.sessions.lookup k := by
  intro ids
  induction ids with
  | nil => intro m; simp [sweepLoop]
  | cons id rest ih =>
    intro m
    by_cases hk : k = id
    · subst hk
      simp only [sweepLoop, List.mem_cons, true_or, if_true]
      cases hl : m.sessionTimes.lookup k with
      | none => simp [ih, hl]
      | some t =>
        by_cases he : expired (clock k) t = true
        · simp [ih, hl, he]
        · simp [ih, hl, he]
    · have hne : k ≠ id := hk
      simp only [sweepLoop, List.mem_cons, hk, false_or]
      cases hl : m.sessionTimes.lookup id with
      | none => simp [ih]
      | some t =>
        by_cases he : expired (clock id) t = true
        · simp [ih, he, AList.lookup_erase_ne hne]
        · simp [ih, he]

theorem sessionCleaner_sessionTimes {V : Type} (clock : String → Time) (m : SessionManager V)
    (k : String) :
    (sessionCleaner clock m).sessionTimes.lookup k =
      match m.sessionTimes.lookup k with
      | none => none
      | some t => if expired (clock k) t then none else some t := by
  unfold sessionCleaner
  rw [sweepLoop_sessionTimes]
  by_cases hk : k ∈ m.sessionTimes.keys
  · simp [hk]
  · have : m.sessionTimes.lookup k = none := AList.lookup_eq_none.mpr hk
    simp [hk, this]

theorem sessionCleaner_sessions {V : Type} (clock : String → Time) (m : SessionManager V)
    (k : String) :
    (sessionCleaner clock m).sessions.lookup k =
      match m.sessionTimes.lookup k with
      | none => m.sessions.lookup k
      | some t => if expired (clock k) t then none else m.sessions.lookup k := by
  unfold sessionCleaner
  rw [sweepLoop_sessions]
  by_cases hk : k ∈ m.sessionTimes.keys
  · simp [hk]
  · have : m.sessionTimes.lookup k = none := AList.lookup_eq_none.mpr hk
    simp [hk, this]

/-! ## Single operations -/

theorem expired_iff_age (now t : Time) : expired now t = true ↔ 5 * Second ≤ now - t := by
  rw [expired_iff]
  unfold TTL Second
  unfold Time Duration at *
  omega

theorem not_expired_iff_age (now t : Time) : expired now t = false ↔ now - t < 5 * Second := by
  rw [expired_eq_false_iff]
  unfold TTL Second
  unfold Time Duration at *
  omega

/-- Claim C1: for every store, every key present in it, every payload and every
clock reading, `UpdateSessionData` returns `nil`, and the `GetSessionData` that
follows returns exactly the new payload, whatever the old one held. -/
theorem update_then_get {V : Type} (m : SessionManager V) (k : String) (p : Payload V)
    (now : Time) (hk : k ∈ m.sessions) :
    (UpdateSessionData k p now m).1 = none ∧
      (GetSessionData k (UpdateSessionData k p now m).2).1 = .ok p ∧
      (UpdateSessionData k p now m).2.sessions.lookup k = some { Data := p } ∧
      (UpdateSessionData k p now m).2.sessionTimes.lookup k = some now := by
  obtain ⟨s, hs⟩ := Option.isSome_iff_exists.mp (AList.lookup_isSome.mpr hk)
  simp [UpdateSessionData, GetSessionData, hs, AList.lookup_insert]

/-- Claim C2: when the generator returns key `k` and no error, `CreateSession`
returns `k` with a `nil` error, and a `GetSessionData k` made right after
succeeds with a payload that has no field. -/
theorem create_then_get {V : Type} (m : SessionManager V) (k : String) (now : Time) :
    (CreateSession (k, none) now m).1 = (k, none) ∧
      (GetSessionData k (CreateSession (k, none) now m).2).1 = .ok (∅ : Payload V) ∧
      (∅ : Payload V).keys = [] ∧
      (CreateSession (k, none) now m).2.sessionTimes.lookup k = some now := by
  simp [CreateSession, GetSessionData, AList.lookup_insert]

/-- Claim C3: on a key absent from the store `UpdateSessionData` returns
`ErrSessionNotFound` and hands back the very same store; the key is still
absent from the payload map, and from the timestamp map when it was absent
there (as it is whenever the two maps have the same keys). -/
theorem update_absent {V : Type} (m : SessionManager V) (k : String) (p : Payload V)
    (now : Time) (hk : k ∉ m.sessions) :
    UpdateSessionData k p now m = (some .ErrSessionNotFound, m) ∧
      k ∉ (UpdateSessionData k p now m).2.sessions ∧
      (k ∉ m.sessionTimes → k ∉ (UpdateSessionData k p now m).2.sessionTimes) ∧
      (keysInSync m → k ∉ (UpdateSessionData k p now m).2.sessionTimes) := by
  have hl : m.sessions.lookup k = none := AList.lookup_eq_none.mpr hk
  have hu : UpdateSessionData k p now m = (some .ErrSessionNotFound, m) := by
    simp [UpdateSessionData, hl]
  rw [hu]
  exact ⟨rfl, hk, fun h => h, fun hs h => hk ((hs k).mpr h)⟩

/-- Claim C5: one sweep at clock reading `now` removes from both maps every key
whose age `now - t` is at least five seconds, keeps every key whose age is
below five seconds with its payload and timestamp as they were, removes no
other key, and leaves a payload that has no timestamp alone. -/
theorem sweep_removes_exactly_expired {V : Type} (m : SessionManager V) (now : Time)
    (k : String) :
    (∀ t, m.sessionTimes.lookup k = some t → 5 * Second ≤ now - t →
        (sessionCleaner (fun _ => now) m).sessions.lookup k = none ∧
        (sessionCleaner (fun _ => now) m).sessionTimes.lookup k = none) ∧
    (∀ t, m.sessionTimes.lookup k = some t → now - t < 5 * Second →
        (sessionCleaner (fun _ => now) m).sessions.lookup k = m.sessions.lookup k ∧
        (sessionCleaner (fun _ => now) m).sessionTimes.lookup k = some t) ∧
    (m.sessionTimes.lookup k = none →
        (sessionCleaner (fun _ => now) m).sessions.lookup k = m.sessions.lookup k ∧
        (sessionCleaner (fun _ => now) m).sessionTimes.lookup k = none) ∧
    ((k ∈ m.sessionTimes ∧ k ∉ (sessionCleaner (fun _ => now) m).sessionTimes) ↔
        ∃ t, m.sessionTimes.lookup k = some t ∧ 5 * Second ≤ now - t) := by
  have hT := sessionCleaner_sessionTimes (fun _ => now) m k
  have hS := sessionCleaner_sessions (fun _ => now) m k
  refine ⟨?_, ?_, ?_, ?_⟩
  · intro t ht hage
    have he : expired now t = true := (expired_iff_age now t).mpr hage
    simp [hT, hS, ht, he]
  · intro t ht hage
    have he : expired now t = false := (not_expired_iff_age now t).mpr hage
    simp [hT, hS, ht, he]
  · intro ht
    simp [hT, hS, ht]
  · rw [← AList.lookup_isSome, ← AList.lookup_eq_none, hT]
    cases ht : m.sessionTimes.lookup k with
    | none => simp
    | some t =>
      by_cases he : expired now t = true
      · have hage := (expired_iff_age now t).mp he
        simpa [he] using hage
      · have hlt := (not_expired_iff_age now t).mp (by simpa using he)
        simpa [he] using hlt

/-- Claim C8: `GetSessionData` hands back the store it was given, found or not:
both maps are the same afterwards, the timestamp of the key is what it was, and
any later sweep acts as if the read had not happened. -/
theorem get_leaves_store {V : Type} (m : SessionManager V) (k : String) :
    (GetSessionData k m).2 = m ∧
      (GetSessionData k m).2.sessions = m.sessions ∧
      (GetSessionData k m).2.sessionTimes = m.sessionTimes ∧
      ∀ clock : String → Time,
        sessionCleaner clock (GetSessionData k m).2 = sessionCleaner clock m := by
  have h : (GetSessionData k m).2 = m := by
    unfold GetSessionData
    cases m.sessions.lookup k <;> rfl
  rw [h]
  exact ⟨rfl, rfl, rfl, fun _ => rfl⟩

/-! ## Runs: the two maps keep the same keys -/

theorem keysInSync_new {V : Type} : keysInSync (NewSessionManager : SessionManager V) := by
  intro k
  simp [NewSessionManager]

theorem GetSessionData_snd {V : Type} (k : String) (m : SessionManager V) :
    (GetSessionData k m).2 = m := by
  unfold GetSessionData
  cases m.sessions.lookup k <;> rfl

theorem UpdateSessionData_of_none {V : Type} (k : String) (p : Payload V) (now : Time)
    (m : SessionManager V) (h : m.sessions.lookup k = none) :
    UpdateSessionData k p now m = (some .ErrSessionNotFound, m) := by
  simp [UpdateSessionData, h]

theorem UpdateSessionData_of_some {V : Type} (k : String) (p : Payload V) (now : Time)
    (m : SessionManager V) (s : Session V) (h : m.sessions.lookup k = some s) :
    UpdateSessionData k p now m =
      (none, { sessions := m.sessions.insert k { Data := p }
               sessionTimes := m.sessionTimes.insert k now }) := by
  simp [UpdateSessionData, h]

theorem keysInSync_applyOp {V : Type} (m : SessionManager V) (op : Op V)
    (h : keysInSync m) : keysInSync (applyOp m op) := by
  intro k
  cases op with
  | create gen now =>
    obtain ⟨id, err⟩ := gen
    cases err with
    | some e => simpa [applyOp, CreateSession] using h k
    | none =>
      simp only [applyOp, CreateSession, AList.mem_insert]
      rw [h k]
  | get sessionID =>
    simp only [applyOp, GetSessionData_snd]
    exact h k
  | update sessionID data now =>
    simp only [applyOp]
    cases hl : m.sessions.lookup sessionID with
    | none =>
      rw [UpdateSessionData_of_none _ _ _ _ hl]
      exact h k
    | some s =>
      rw [UpdateSessionData_of_some _ _ _ _ s hl]
      simp only [AList.mem_insert]
      rw [h k]
  | sweep clock =>
    simp only [applyOp]
    rw [← AList.lookup_isSome, ← AList.lookup_isSome, sessionCleaner_sessions,
      sessionCleaner_sessionTimes]
    have hk := h k
    rw [← AList.lookup_isSome, ← AList.lookup_isSome] at hk
    cases hT : m.sessionTimes.lookup k with
    | none => simpa [hT] using hk
    | some t =>
      by_cases he : expired (clock k) t = true
      · simp [he]
      · simpa [hT, he] using hk

theorem keysInSync_run {V : Type} (ops : List (Op V)) :
    ∀ m : SessionManager V, keysInSync m → keysInSync (run ops m) := by
  induction ops with
  | nil => intro m h; exact h
  | cons op rest ih =>
    intro m h
    exact ih (applyOp m op) (keysInSync_applyOp m op h)

/-- Claim C6: in every store that a sequence of `CreateSession`,
`GetSessionData`, `UpdateSessionData` and cleaner sweeps produces from
`NewSessionManager`, a key is in the payload map exactly when it is in the
timestamp map. -/
theorem reachable_keysInSync {V : Type} (m : SessionManager V) (h : Reachable m) :
    keysInSync m := by
  obtain ⟨ops, rfl⟩ := h
  exact keysInSync_run ops _ keysInSync_new

/-- The invariant of C6 at the store reached by a creation, an update, a sweep
six seconds later and a read. -/
theorem reachable_keysInSync_witness :
    Reachable (run [Op.create ("k", none) 0, Op.update "k" (∅ : Payload Nat) 1000000000,
        Op.sweep (fun _ => 6000000000), Op.get "k"] NewSessionManager) ∧
      keysInSync (run [Op.create ("k", none) 0, Op.update "k" (∅ : Payload Nat) 1000000000,
        Op.sweep (fun _ => 6000000000), Op.get "k"] NewSessionManager) :=
  ⟨⟨_, rfl⟩, reachable_keysInSync _ ⟨_, rfl⟩⟩

/-! ## Lifetime of an entry -/

/-- The entry of `k` is live with timestamp `t0` and session `s`. -/
theorem live_applyOp {V : Type} (m : SessionManager V) (k : String) (t0 : Time) (s : Session V)
    (op : Op V) (hT : m.sessionTimes.lookup k = some t0) (hS : m.sessions.lookup k = some s)
    (hop : ¬ op.setsTime k) (hsw : ∀ clock, op = Op.sweep clock → clock k < t0 + TTL) :
    (applyOp m op).sessionTimes.lookup k = some t0 ∧
      (applyOp m op).sessions.lookup k = some s := by
  cases op with
  | create gen now =>
    obtain ⟨id, err⟩ := gen
    cases err with
    | some e => exact ⟨hT, hS⟩
    | none =>
      have hne : k ≠ id := fun h => hop (by simp [Op.setsTime, h])
      simp [applyOp, CreateSession, AList.lookup_insert_ne hne, hT, hS]
  | get sessionID =>
    simp only [applyOp, GetSessionData_snd]
    exact ⟨hT, hS⟩
  | update sessionID data now =>
    have hne : k ≠ sessionID := fun h => hop (by simp [Op.setsTime, h])
    simp only [applyOp]
    cases hl : m.sessions.lookup sessionID with
    | none =>
      rw [UpdateSessionData_of_none _ _ _ _ hl]
      exact ⟨hT, hS⟩
    | some s' =>
      rw [UpdateSessionData_of_some _ _ _ _ s' hl]
      simp [AList.lookup_insert_ne hne, hT, hS]
  | sweep clock =>
    have he : expired (clock k) t0 = false :=
      (expired_eq_false_iff _ _).mpr (hsw clock rfl)
    simp [applyOp, sessionCleaner_sessions, sessionCleaner_sessionTimes, hT, hS, he]

theorem gone_applyOp {V : Type} (m : SessionManager V) (k : String) (op : Op V)
    (hS : m.sessions.lookup k = none) (hop : ¬ op.setsTime k) :
    (applyOp m op).sessions.lookup k = none := by
  cases op with
  | create gen now =>
    obtain ⟨id, err⟩ := gen
    cases err with
    | some e => exact hS
    | none =>
      have hne : k ≠ id := fun h => hop (by simp [Op.setsTime, h])
      simp [applyOp, CreateSession, AList.lookup_insert_ne hne, hS]
  | get sessionID =>
    simp only [applyOp, GetSessionData_snd]
    exact hS
  | update sessionID data now =>
    have hne : k ≠ sessionID := fun h => hop (by simp [Op.setsTime, h])
    simp only [applyOp]
    cases hl : m.sessions.lookup sessionID with
    | none =>
      rw [UpdateSessionData_of_none _ _ _ _ hl]
      exact hS
    | some s' =>
      rw [UpdateSessionData_of_some _ _ _ _ s' hl]
      simp [AList.lookup_insert_ne hne, hS]
  | sweep clock =>
    simp only [applyOp, sessionCleaner_sessions, hS]
    cases m.sessionTimes.lookup k with
    | none => rfl
    | some t => simp

theorem live_or_gone_applyOp {V : Type} (m : SessionManager V) (k : String) (t0 : Time)
    (s : Session V) (op : Op V)
    (h : (m.sessionTimes.lookup k = some t0 ∧ m.sessions.lookup k = some s) ∨
      m.sessions.lookup k = none)
    (hop : ¬ op.setsTime k) :
    ((applyOp m op).sessionTimes.lookup k = some t0 ∧
        (applyOp m op).sessions.lookup k = some s) ∨
      (applyOp m op).sessions.lookup k = none := by
  rcases h with ⟨hT, hS⟩ | hS
  · by_cases hsw : ∀ clock, op = Op.sweep clock → clock k < t0 + TTL
    · exact Or.inl (live_applyOp m k t0 s op hT hS hop hsw)
    · push_neg at hsw
      obtain ⟨clock, rfl, hc⟩ := hsw
      right
      have he : expired (clock k) t0 = true := (expired_iff _ _).mpr hc
      simp [applyOp, sessionCleaner_sessions, hT, he]
  · exact Or.inr (gone_applyOp m k op hS hop)

theorem sweep_removes {V : Type} (m : SessionManager V) (k : String) (t0 : Time)
    (s : Session V) (clock : String → Time)
    (h : (m.sessionTimes.lookup k = some t0 ∧ m.sessions.lookup k = some s) ∨
      m.sessions.lookup k = none)
    (hc : t0 + TTL ≤ clock k) :
    (applyOp m (Op.sweep clock)).sessions.lookup k = none := by
  rcases h with ⟨hT, hS⟩ | hS
  · have he : expired (clock k) t0 = true := (expired_iff _ _).mpr hc
    simp [applyOp, sessionCleaner_sessions, hT, he]
  · exact gone_applyOp m k _ hS (by simp [Op.setsTime])

theorem live_run {V : Type} (k : String) (t0 : Time) (s : Session V) (ops : List (Op V)) :
    ∀ m : SessionManager V, m.sessionTimes.lookup k = some t0 → m.sessions.lookup k = some s →
      (∀ op ∈ ops, ¬ op.setsTime k) →
      (∀ clock, Op.sweep clock ∈ ops → clock k < t0 + TTL) →
      (run ops m).sessionTimes.lookup k = some t0 ∧ (run ops m).sessions.lookup k = some s := by
  induction ops with
  | nil => intro m hT hS _ _; exact ⟨hT, hS⟩
  | cons op rest ih =>
    intro m hT hS hops hsw
    have h1 := live_applyOp m k t0 s op hT hS (hops op (List.mem_cons_self _ _))
      (fun clock hc => hsw clock (hc ▸ List.mem_cons_self _ _))
    exact ih (applyOp m op) h1.1 h1.2
      (fun o ho => hops o (List.mem_cons_of_mem _ ho))
      (fun clock hc => hsw clock (List.mem_cons_of_mem _ hc))

theorem gone_run {V : Type} (k : String) (ops : List (Op V)) :
    ∀ m : SessionManager V, m.sessions.lookup k = none →
      (∀ op ∈ ops, ¬ op.setsTime k) → (run ops m).sessions.lookup k = none := by
  induction ops with
  | nil => intro m hS _; exact hS
  | cons op rest ih =>
    intro m hS hops
    exact ih (applyOp m op) (gone_applyOp m k op hS (hops op (List.mem_cons_self _ _)))
      (fun o ho => hops o (List.mem_cons_of_mem _ ho))

theorem removed_run {V : Type} (k : String) (t0 : Time) (s : Session V) (ops : List (Op V)) :
    ∀ m : SessionManager V,
      ((m.sessionTimes.lookup k = some t0 ∧ m.sessions.lookup k = some s) ∨
        m.sessions.lookup k = none) →
      (∀ op ∈ ops, ¬ op.setsTime k) →
      (∃ clock, Op.sweep clock ∈ ops ∧ t0 + TTL ≤ clock k) →
      (run ops m).sessions.lookup k = none := by
  induction ops with
  | nil => intro m _ _ h; obtain ⟨_, hmem, _⟩ := h; cases hmem
  | cons op rest ih =>
    intro m hm hops hex
    have hrest : ∀ o ∈ rest, ¬ o.setsTime k := fun o ho => hops o (List.mem_cons_of_mem _ ho)
    obtain ⟨clock, hmem, hc⟩ := hex
    rcases List.mem_cons.mp hmem with heq | hin
    · subst heq
      exact gone_run k rest _ (sweep_removes m k t0 s clock hm hc) hrest
    · exact ih (applyOp m op)
        (live_or_gone_applyOp m k t0 s op hm (hops op (List.mem_cons_self _ _))) hrest
        ⟨clock, hin, hc⟩

/-- Claim C4: take an entry whose timestamp `t0` no operation of the run sets
again.  As long as the clock is before `t0 + TTL` (so every sweep made so far
read a clock before it), no sweep has removed the entry and `GetSessionData`
returns its payload.  Once the clock has reached `t0 + TTL + tickPeriod`, and
the cleaner has swept once every `tickPeriod` since `t0 + TTL`,
`GetSessionData` returns `ErrSessionNotFound`.  Here `TTL` is five seconds
and `tickPeriod` one second. -/
theorem entry_lifetime {V : Type} (m : SessionManager V) (k : String) (t0 : Time)
    (s : Session V) (ops : List (Op V)) (now : Time)
    (hT : m.sessionTimes.lookup k = some t0) (hS : m.sessions.lookup k = some s)
    (hops : ∀ op ∈ ops, ¬ op.setsTime k) :
    TTL = 5 * Second ∧ tickPeriod = Second ∧
    (now < t0 + TTL → (∀ clock, Op.sweep clock ∈ ops → clock k ≤ now) →
      (run ops m).sessionTimes.lookup k = some t0 ∧
      (GetSessionData k (run ops m)).1 = .ok s.Data) ∧
    (t0 + TTL + tickPeriod ≤ now → sweepsEvery tickPeriod ops k (t0 + TTL) now →
      (GetSessionData k (run ops m)).1 = .error .ErrSessionNotFound) := by
  refine ⟨rfl, rfl, ?_, ?_⟩
  · intro hnow hsw
    have h := live_run k t0 s ops m hT hS hops
      (fun clock hc => lt_of_le_of_lt (hsw clock hc) hnow)
    refine ⟨h.1, ?_⟩
    simp [GetSessionData, h.2]
  · intro hnow hevery
    obtain ⟨clock, hmem, hlo, _⟩ := hevery (t0 + TTL) (le_refl _) hnow
    have h := removed_run k t0 s ops m (Or.inl ⟨hT, hS⟩) hops ⟨clock, hmem, hlo⟩
    simp [GetSessionData, h]

theorem mainStore_sessions (sID : String) (now : Time) :
    (mainStore sID now).sessions.lookup sID = some { Data := mainData } := by
  simp [mainStore, run, applyOp, CreateSession, UpdateSessionData, AList.lookup_insert]

theorem mainStore_sessionTimes (sID : String) (now : Time) :
    (mainStore sID now).sessionTimes.lookup sID = some now := by
  simp [mainStore, run, applyOp, CreateSession, UpdateSessionData, AList.lookup_insert]

/-- The scenario of `main` continued: the entry written at clock `0` is still
read back four seconds later, and is gone after eight seconds of sweeps. -/
theorem entry_lifetime_witness :
    (GetSessionData "k1" (run [Op.get "k1", Op.sweep (fun _ => 4000000000)]
        (mainStore "k1" 0))).1 = .ok mainData ∧
    (GetSessionData "k1" (run [Op.get "k1", Op.sweep (fun _ => 6000000000),
        Op.sweep (fun _ => 7000000000)] (mainStore "k1" 0))).1 =
      .error .ErrSessionNotFound := by
  constructor
  · refine ((entry_lifetime (mainStore "k1" 0) "k1" 0 { Data := mainData }
      [Op.get "k1", Op.sweep (fun _ => 4000000000)] 4000000000
      (mainStore_sessionTimes _ _) (mainStore_sessions _ _) ?_).2.2.1 (by decide) ?_).2
    · intro op hop
      simp only [List.mem_cons, List.mem_singleton, List.not_mem_nil, or_false] at hop
      rcases hop with rfl | rfl <;> simp [Op.setsTime]
    · intro clock hc
      simp only [List.mem_cons, List.mem_singleton, List.not_mem_nil, or_false, Op.sweep.injEq,
        reduceCtorEq, false_or] at hc
      subst hc
      decide
  · refine (entry_lifetime (mainStore "k1" 0) "k1" 0 { Data := mainData }
      [Op.get "k1", Op.sweep (fun _ => 6000000000), Op.sweep (fun _ => 7000000000)] 8000000000
      (mainStore_sessionTimes _ _) (mainStore_sessions _ _) ?_).2.2.2 (by decide) ?_
    · intro op hop
      simp only [List.mem_cons, List.mem_singleton, List.not_mem_nil, or_false] at hop
      rcases hop with rfl | rfl | rfl <;> simp [Op.setsTime]
    · intro t hlo hhi
      unfold TTL tickPeriod Second at *
      unfold Time Duration at *
      by_cases h6 : t ≤ 6000000000
      · refine ⟨fun _ => 6000000000, by simp, ?_, ?_⟩
        · show t ≤ 6000000000
          exact h6
        · show (6000000000 : Int) ≤ t + 1000000000
          omega
      · refine ⟨fun _ => 7000000000, by simp, ?_, ?_⟩
        · show t ≤ 7000000000
          omega
        · show (7000000000 : Int) ≤ t + 1000000000
          omega

/-! ## The step-level model agrees with the whole operations -/

theorem runAlone_UpdateSessionData {V : Type} (tid : Nat) (k : String) (p : Payload V)
    (now : Time) (m : SessionManager V) :
    runAlone tid 7 { store := m, mu := none } (Thread.start (UpdateSessionDataCode k p now)) =
      some ({ store := (UpdateSessionData k p now m).2, mu := none },
        { code := [], session := m.sessions.lookup k,
          result := some (.update (UpdateSessionData k p now m).1) }) := by
  cases hl : m.sessions.lookup k with
  | none =>
    simp [runAlone, stepThread, Thread.start, UpdateSessionDataCode, UpdateSessionData, hl]
  | some s =>
    simp [runAlone, stepThread, Thread.start, UpdateSessionDataCode, UpdateSessionData, hl]

theorem runAlone_GetSessionData {V : Type} (tid : Nat) (k : String) (m : SessionManager V) :
    runAlone tid 5 { store := m, mu := none } (Thread.start (GetSessionDataCode k)) =
      some ({ store := (GetSessionData k m).2, mu := none },
        { code := [], session := m.sessions.lookup k,
          result := some (.get (GetSessionData k m).1) }) := by
  cases hl : m.sessions.lookup k with
  | none =>
    simp [runAlone, stepThread, Thread.start, GetSessionDataCode, GetSessionData, hl]
  | some s =>
    simp [runAlone, stepThread, Thread.start, GetSessionDataCode, GetSessionData, hl]

theorem runAlone_CreateSession {V : Type} (tid : Nat) (gen : String × Option GoError)
    (now : Time) (m : SessionManager V) :
    runAlone tid 6 { store := m, mu := none } (Thread.start (CreateSessionCode gen now)) =
      some ({ store := (CreateSession gen now m).2, mu := none },
        { code := [], session := none,
          result := some (.create (CreateSession gen now m).1) }) := by
  obtain ⟨id, err⟩ := gen
  cases err with
  | none => simp [runAlone, stepThread, Thread.start, CreateSessionCode, CreateSession]
  | some e => simp [runAlone, stepThread, Thread.start, CreateSessionCode, CreateSession]

theorem runAlone_sessionCleaner {V : Type} (tid : Nat) (clock : String → Time)
    (m : SessionManager V) :
    runAlone tid 3 { store := m, mu := none } (Thread.start (sessionCleanerCode clock)) =
      some ({ store := sessionCleaner clock m, mu := none },
        { code := [], session := none, result := none }) := by
  simp [runAlone, stepThread, Thread.start, sessionCleanerCode]

/-- Claim C9: when the generator returns an error, `CreateSession` returns the
empty key with that error and the very same store, so neither map gains an
entry.  In the statements of `CreateSession` the generator call comes first,
the mutex is taken after it, and not at all when the generator failed: the call
then ends whoever holds the mutex, with the shared memory as it was. -/
theorem create_generator_failure {V : Type} (m : SessionManager V) (id : String) (err : GoError)
    (now : Time) :
    CreateSession (id, some err) now m = (("", some err), m) ∧
      (CreateSession (id, some err) now m).2.sessions = m.sessions ∧
      (CreateSession (id, some err) now m).2.sessionTimes = m.sessionTimes ∧
      (∀ gen : String × Option GoError,
        ∃ rest : List (Stmt V), CreateSessionCode gen now = Stmt.makeSessionID :: rest ∧
          lockDiscipline false (CreateSessionCode (V := V) gen now) = true) ∧
      CreateSessionCode (V := V) (id, some err) now =
        [Stmt.makeSessionID, Stmt.ret (.create ("", some err))] ∧
      ∀ (tid : Nat) (sh : Shared V),
        runAlone tid 2 sh (Thread.start (CreateSessionCode (id, some err) now)) =
          some (sh, { code := [], session := none, result := some (.create ("", some err)) }) := by
  refine ⟨rfl, rfl, rfl, ?_, rfl, ?_⟩
  · rintro ⟨id', err'⟩
    cases err' with
    | none => exact ⟨_, rfl, rfl⟩
    | some e => exact ⟨_, rfl, rfl⟩
  · intro tid sh
    simp [runAlone, stepThread, Thread.start, CreateSessionCode]

/-! ## The existence test of `UpdateSessionData` and the mutex -/

theorem lockDiscipline_others {V : Type} (k : String) (gen : String × Option GoError)
    (now : Time) (clock : String → Time) :
    lockDiscipline false (GetSessionDataCode (V := V) k) = true ∧
      lockDiscipline false (CreateSessionCode (V := V) gen now) = true ∧
      lockDiscipline false (sessionCleanerCode (V := V) clock) = true := by
  obtain ⟨id, err⟩ := gen
  cases err <;> exact ⟨rfl, rfl, rfl⟩

theorem race_expired : expired 5000000000 0 = true :=
  (expired_iff _ _).mpr (by decide)

/-- Claim C7, as the code has it: `UpdateSessionData` reads `m.sessions` before
it takes the mutex, so its statements break the lock discipline, and the read
goes through even while another goroutine holds the mutex.  In the run of
`raceConfig` the cleaner takes the mutex, sweeps and releases it between the
existence test of `UpdateSessionData` and its writes: the test saw the entry,
the sweep removed it from both maps, and the update still returned `nil` and
put the key back, where the same call made after the sweep returns
`ErrSessionNotFound`. -/
theorem update_check_outside_lock :
    (∀ (k : String) (p : Payload String) (now : Time),
      lockDiscipline false (UpdateSessionDataCode k p now) = false ∧
      ∀ (tid : Nat) (sh : Shared String),
        stepThread tid sh (Thread.start (UpdateSessionDataCode k p now)) =
          some (sh, { code := (UpdateSessionDataCode k p now).tail,
                      session := sh.store.sessions.lookup k, result := none })) ∧
    (runSchedule [0, 0] (raceConfig "k1")).map (fun c => c.shared) =
      some (raceConfig "k1").shared ∧
    (runSchedule [0, 0, 1, 1, 1] (raceConfig "k1")).map
        (fun c => (c.shared.mu, c.shared.store.sessions.lookup "k1",
          c.shared.store.sessionTimes.lookup "k1",
          (UpdateSessionData "k1" (∅ : Payload String) 5000000001 c.shared.store).1)) =
      some (none, none, none, some .ErrSessionNotFound) ∧
    (runSchedule [0, 0, 1, 1, 1, 0, 0, 0, 0, 0] (raceConfig "k1")).map
        (fun c => (c.threads.map (fun th => th.result), c.shared.mu,
          c.shared.store.sessions.lookup "k1", c.shared.store.sessionTimes.lookup "k1")) =
      some ([some (.update none), none], none, some { Data := ∅ }, some 5000000001) := by
  refine ⟨fun k p now => ⟨rfl, fun tid sh => rfl⟩, ?_, ?_, ?_⟩
  · simp [runSchedule, Config.step, stepThread, raceConfig, Thread.start, UpdateSessionDataCode,
      sessionCleanerCode, mainStore_sessions]
  · simp [runSchedule, Config.step, stepThread, raceConfig, Thread.start, UpdateSessionDataCode,
      sessionCleanerCode, mainStore_sessions, mainStore_sessionTimes, sessionCleaner_sessions,
      sessionCleaner_sessionTimes, race_expired, UpdateSessionData]
  · simp [runSchedule, Config.step, stepThread, raceConfig, Thread.start, UpdateSessionDataCode,
      sessionCleanerCode, mainStore_sessions, AList.lookup_insert]

/-! ## The theorems at the store of `main` -/

/-- The update of C1 on the store of `main`: the key is present, and after
`UpdateSessionData` with the empty payload the read returns the empty payload,
the field `website` gone. -/
theorem update_then_get_witness :
    "k1" ∈ (mainStore "k1" 0).sessions ∧
      (UpdateSessionData "k1" (∅ : Payload String) 1000000000 (mainStore "k1" 0)).1 = none ∧
      (GetSessionData "k1"
        (UpdateSessionData "k1" (∅ : Payload String) 1000000000 (mainStore "k1" 0)).2).1 =
        .ok ∅ :=
  have hk : "k1" ∈ (mainStore "k1" 0).sessions :=
    AList.lookup_isSome.mp (by rw [mainStore_sessions]; rfl)
  ⟨hk, (update_then_get (mainStore "k1" 0) "k1" ∅ 1000000000 hk).1,
    (update_then_get (mainStore "k1" 0) "k1" ∅ 1000000000 hk).2.1⟩

/-- The update of C3 on the fresh store, where no key is present. -/
theorem update_absent_witness :
    "k1" ∉ (NewSessionManager : SessionManager String).sessions ∧
      UpdateSessionData "k1" mainData 0 (NewSessionManager : SessionManager String) =
        (some .ErrSessionNotFound, NewSessionManager) :=
  ⟨AList.not_mem_empty _,
    (update_absent NewSessionManager "k1" mainData 0 (AList.not_mem_empty _)).1⟩

/-- The sweep of C5 on the store of `main`, written at clock `0`: a sweep at
`5s` removes the entry from both maps, a sweep one nanosecond earlier keeps
payload and timestamp. -/
theorem sweep_removes_exactly_expired_witness :
    ((sessionCleaner (fun _ => 5000000000) (mainStore "k1" 0)).sessions.lookup "k1" = none ∧
      (sessionCleaner (fun _ => 5000000000) (mainStore "k1" 0)).sessionTimes.lookup "k1" = none) ∧
    ((sessionCleaner (fun _ => 4999999999) (mainStore "k1" 0)).sessions.lookup "k1" =
        (mainStore "k1" 0).sessions.lookup "k1" ∧
      (sessionCleaner (fun _ => 4999999999) (mainStore "k1" 0)).sessionTimes.lookup "k1" =
        some 0) :=
  ⟨(sweep_removes_exactly_expired (mainStore "k1" 0) 5000000000 "k1").1 0
      (mainStore_sessionTimes _ _) (by decide),
    (sweep_removes_exactly_expired (mainStore "k1" 0) 4999999999 "k1").2.1 0
      (mainStore_sessionTimes _ _) (by decide)⟩

end SessionCleaner


namespace LimitServiceTime

/-! ## The service-time limiter -/

theorem addTick_TimeUsed (u : User) :
    (addTick u).TimeUsed = (u.TimeUsed + 1) % 18446744073709551616 := rfl

theorem iterate_addTick_IsPremium (k : Nat) (u : User) :
    (addTick^[k] u).IsPremium = u.IsPremium := by
  induction k generalizing u with
  | zero => rfl
  | succ k ih => rw [Function.iterate_succ_apply, ih]; rfl

theorem iterate_addTick_ID (k : Nat) (u : User) : (addTick^[k] u).ID = u.ID := by
  induction k generalizing u with
  | zero => rfl
  | succ k ih => rw [Function.iterate_succ_apply, ih]; rfl

theorem iterate_addTick_TimeUsed (k : Nat) (u : User) (hk : 1 ≤ k) :
    (addTick^[k] u).TimeUsed = (u.TimeUsed + k) % 18446744073709551616 := by
  induction k generalizing u with
  | zero => omega
  | succ k ih =>
    rw [Function.iterate_succ_apply]
    by_cases hk0 : k = 0
    · subst hk0; rfl
    · rw [ih (addTick u) (by omega), addTick_TimeUsed]
      omega

theorem iterate_addTick_shift (j k : Nat) (u : User) :
    addTick^[k] (addTick^[j] u) = addTick^[j + k] u := by
  rw [Nat.add_comm, Function.iterate_add_apply]

/-- The test of `HandleRequest` on the user reached after `k` increments. -/
theorem kills_iff (u : User) (k : Nat) (hk : 1 ≤ k) :
    ((10 < (addTick^[k] u).TimeUsed && !(addTick^[k] u).IsPremium) = true) ↔
      u.IsPremium = false ∧ 10 < (u.TimeUsed + k) % uint64Modulus := by
  rw [iterate_addTick_IsPremium, iterate_addTick_TimeUsed k u hk]
  unfold uint64Modulus
  cases u.IsPremium <;> simp

theorem HandleRequest_tick (between : Nat) (rest : List Event) (u : User) :
    HandleRequest (Event.tick between :: rest) u =
      if u.IsPremium = false ∧ 10 < (u.TimeUsed + (1 + between)) % uint64Modulus then
        (some false, addTick^[1 + between] u)
      else HandleRequest rest (addTick^[1 + between] u) := by
  have hu : addTick^[between] (addTick u) = addTick^[1 + between] u := by
    rw [Nat.add_comm, Function.iterate_succ_apply]
  rw [HandleRequest]
  simp only [hu]
  by_cases h : (10 < (addTick^[1 + between] u).TimeUsed &&
      !(addTick^[1 + between] u).IsPremium) = true
  · rw [if_pos h, if_pos ((kills_iff u _ (by omega)).mp h)]
  · rw [if_neg h, if_neg (fun h' => h ((kills_iff u _ (by omega)).mpr h'))]

/-- No tick of `pre` puts a non-premium user over the budget. -/
theorem HandleRequest_append (pre : List Event) :
    ∀ (u : User) (rest : List Event), Event.completed ∉ pre → ¬ overBudgetTick u pre →
      HandleRequest (pre ++ rest) u = HandleRequest rest (addTick^[adds pre] u) := by
  induction pre with
  | nil => intro u rest _ _; rfl
  | cons e pre ih =>
    intro u rest hc hno
    have hc' : Event.completed ∉ pre := fun h => hc (List.mem_cons_of_mem _ h)
    cases e with
    | completed => exact absurd (List.mem_cons_self _ _) hc
    | other =>
      rw [List.cons_append, HandleRequest, adds, ih (addTick u) rest hc', ← Function.iterate_succ_apply,
        Nat.add_comm]
      rintro ⟨hp, p, b, q, hpre, hcp, hlt⟩
      refine hno ⟨hp, Event.other :: p, b, q, by rw [hpre]; rfl, ?_, ?_⟩
      · intro h
        rcases List.mem_cons.mp h with h | h
        · cases h
        · exact hcp h
      · rw [addTick_TimeUsed] at hlt
        unfold uint64Modulus at *
        simp only [adds]
        omega
    | tick b0 =>
      have hfirst : ¬ (u.IsPremium = false ∧ 10 < (u.TimeUsed + (1 + b0)) % uint64Modulus) := by
        rintro ⟨hp, hlt⟩
        refine hno ⟨hp, [], b0, pre, rfl, List.not_mem_nil _, ?_⟩
        simp only [adds]
        unfold uint64Modulus at *
        omega
      rw [List.cons_append, HandleRequest_tick, if_neg hfirst, adds,
        ih (addTick^[1 + b0] u) rest hc', iterate_addTick_shift]
      rintro ⟨hp, p, b, q, hpre, hcp, hlt⟩
      rw [iterate_addTick_IsPremium] at hp
      refine hno ⟨hp, Event.tick b0 :: p, b, q, by rw [hpre]; rfl, ?_, ?_⟩
      · intro h
        rcases List.mem_cons.mp h with h | h
        · cases h
        · exact hcp h
      · rw [iterate_addTick_TimeUsed _ u (by omega)] at hlt
        unfold uint64Modulus at *
        simp only [adds]
        omega

end LimitServiceTime

namespace LimitServiceTime

theorem adds_append (xs ys : List Event) : adds (xs ++ ys) = adds xs + adds ys := by
  induction xs with
  | nil => simp [adds]
  | cons e xs ih =>
    rw [List.cons_append]
    cases e <;> simp only [adds, ih] <;> omega

theorem iterate_addTick_eq (k : Nat) (u : User) (hk : 1 ≤ k) :
    addTick^[k] u = { u with TimeUsed := (u.TimeUsed + k) % uint64Modulus } := by
  have h1 := iterate_addTick_ID k u
  have h2 := iterate_addTick_IsPremium k u
  have h3 := iterate_addTick_TimeUsed k u hk
  cases hv : addTick^[k] u with
  | mk id prem t =>
    rw [hv] at h1 h2 h3
    simp only at h1 h2 h3
    subst h1 h2 h3
    rfl

theorem iterate_addTick_TimeUsed_add (j k : Nat) (u : User) :
    ((addTick^[j] u).TimeUsed + k) % uint64Modulus =
      (u.TimeUsed + (j + k)) % uint64Modulus := by
  unfold uint64Modulus
  by_cases hj : j = 0
  · subst hj; simp
  · rw [iterate_addTick_TimeUsed j u (by omega)]
    omega

theorem overBudgetTick_append (u : User) (pre rest : List Event)
    (h : overBudgetTick u pre) : overBudgetTick u (pre ++ rest) := by
  obtain ⟨hp, p, b, q, hpre, hcp, hlt⟩ := h
  exact ⟨hp, p, b, q ++ rest, by rw [hpre]; simp, hcp, hlt⟩

/-- Among the ticks that put the user over the budget there is a first one. -/
theorem overBudgetTick_first (u : User) (evs : List Event) (n : Nat) :
    ∀ (pre : List Event) (b : Nat) (post : List Event), pre.length ≤ n →
      evs = pre ++ Event.tick b :: post → Event.completed ∉ pre →
      10 < (u.TimeUsed + (adds pre + 1 + b)) % uint64Modulus →
      ∃ (pre' : List Event) (b' : Nat) (post' : List Event),
        evs = pre' ++ Event.tick b' :: post' ∧ Event.completed ∉ pre' ∧
          ¬ overBudgetTick u pre' ∧
          10 < (u.TimeUsed + (adds pre' + 1 + b')) % uint64Modulus := by
  induction n with
  | zero =>
    intro pre b post hlen hevs hc hlt
    refine ⟨pre, b, post, hevs, hc, ?_, hlt⟩
    rintro ⟨_, p, b', q, hpre, _, _⟩
    rw [hpre] at hlen
    simp at hlen
  | succ n ih =>
    intro pre b post hlen hevs hc hlt
    by_cases hob : overBudgetTick u pre
    · obtain ⟨_, p, b', q, hpre, hcp, hlt'⟩ := hob
      refine ih p b' (q ++ Event.tick b :: post) ?_ ?_ hcp hlt'
      · rw [hpre] at hlen
        simp at hlen
        omega
      · rw [hevs, hpre]; simp
    · exact ⟨pre, b, post, hevs, hc, hob, hlt⟩

theorem HandleRequest_kill (u : User) (pre : List Event) (b : Nat) (post : List Event)
    (hc : Event.completed ∉ pre) (hno : ¬ overBudgetTick u pre) (hp : u.IsPremium = false)
    (hlt : 10 < (u.TimeUsed + (adds pre + 1 + b)) % uint64Modulus) :
    HandleRequest (pre ++ Event.tick b :: post) u =
      (some false, { u with TimeUsed := (u.TimeUsed + (adds pre + 1 + b)) % uint64Modulus }) := by
  rw [HandleRequest_append pre u _ hc hno, HandleRequest_tick, if_pos, iterate_addTick_shift,
    ← Nat.add_assoc, iterate_addTick_eq _ u (by omega)]
  rw [iterate_addTick_IsPremium, iterate_addTick_TimeUsed_add]
  rw [show adds pre + (1 + b) = adds pre + 1 + b from (Nat.add_assoc _ _ _).symm]
  exact ⟨hp, hlt⟩

theorem HandleRequest_complete (u : User) (pre post : List Event)
    (hc : Event.completed ∉ pre) (hno : ¬ overBudgetTick u pre) :
    HandleRequest (pre ++ Event.completed :: post) u = (some true, addTick^[adds pre] u) := by
  rw [HandleRequest_append pre u _ hc hno, HandleRequest]

theorem HandleRequest_waiting (u : User) (evs : List Event)
    (hc : Event.completed ∉ evs) (hno : ¬ overBudgetTick u evs) :
    HandleRequest evs u = (none, addTick^[adds evs] u) := by
  have h := HandleRequest_append evs u [] hc hno
  rw [List.append_nil] at h
  rw [h, HandleRequest]

theorem HandleRequest_false_iff (u : User) (evs : List Event) :
    (HandleRequest evs u).1 = some false ↔ overBudgetTick u evs := by
  constructor
  · intro h
    by_contra hno
    by_cases hc : Event.completed ∈ evs
    · obtain ⟨pre, post, hevs, hcp⟩ := List.eq_append_cons_of_mem hc
      have hno' : ¬ overBudgetTick u pre := fun hp =>
        hno (by rw [hevs]; exact overBudgetTick_append u pre _ hp)
      rw [hevs, HandleRequest_complete u pre post hcp hno'] at h
      simp at h
    · rw [HandleRequest_waiting u evs hc hno] at h
      simp at h
  · rintro ⟨hp, pre, b, post, hevs, hc, hlt⟩
    obtain ⟨pre', b', post', hevs', hc', hno', hlt'⟩ :=
      overBudgetTick_first u evs pre.length pre b post (le_refl _) hevs hc hlt
    rw [hevs', HandleRequest_kill u pre' b' post' hc' hno' hp hlt']

end LimitServiceTime

namespace LimitServiceTime

/-- Claim C10 fails as stated: for a premium user whose counter holds
`2^64 - 1`, one tick leaves `TimeUsed` at `0`, not one higher. -/
theorem tick_wraps_at_max :
    (HandleRequest [Event.tick 0, Event.completed]
        { ID := 1, IsPremium := true, TimeUsed := 18446744073709551615 }) =
      (some true, { ID := 1, IsPremium := true, TimeUsed := 0 }) ∧
    ¬ ((HandleRequest [Event.tick 0, Event.completed]
        { ID := 1, IsPremium := true, TimeUsed := 18446744073709551615 }).2.TimeUsed =
      18446744073709551615 + 1) := by
  constructor <;> decide

/-- Claim C10, amended, for one call on a user that other calls may tick at
the same time.  Each `Add(1)` adds 1 to `TimeUsed` modulo `2^64`, which is
exactly 1 unless the counter holds `2^64 - 1`, and changes nothing else.
`HandleRequest` returns `false` exactly when, before the completion, a tick
occurs for a non-premium user whose `TimeUsed` loaded after the increment is
above 10; it returns at the first such tick and leaves the counter at the
loaded value.  Otherwise it returns `true` at the first completion, with every
increment made until then counted.  So it never returns `false` for a premium
user, nor for a user whose counter stays at or below 10. -/
theorem handleRequest_budget (u : User) (evs : List Event) :
    (addTick u = { u with TimeUsed := (u.TimeUsed + 1) % uint64Modulus } ∧
      (u.TimeUsed + 1 < uint64Modulus → (addTick u).TimeUsed = u.TimeUsed + 1) ∧
      ∀ k, 1 ≤ k → addTick^[k] u = { u with TimeUsed := (u.TimeUsed + k) % uint64Modulus }) ∧
    ((HandleRequest evs u).1 = some false ↔ overBudgetTick u evs) ∧
    (overBudgetTick u evs →
      ∃ (pre : List Event) (between : Nat) (post : List Event),
        evs = pre ++ Event.tick between :: post ∧ Event.completed ∉ pre ∧
        ¬ overBudgetTick u pre ∧
        10 < (u.TimeUsed + (adds pre + 1 + between)) % uint64Modulus ∧
        HandleRequest evs u =
          (some false,
            { u with TimeUsed := (u.TimeUsed + (adds pre + 1 + between)) % uint64Modulus })) ∧
    ((HandleRequest evs u).1 = some true ↔ Event.completed ∈ evs ∧ ¬ overBudgetTick u evs) ∧
    (¬ overBudgetTick u evs →
      ∀ pre post : List Event, evs = pre ++ Event.completed :: post → Event.completed ∉ pre →
        HandleRequest evs u = (some true, addTick^[adds pre] u)) ∧
    (u.IsPremium = true → (HandleRequest evs u).1 ≠ some false) ∧
    (u.TimeUsed + adds evs ≤ 10 → (HandleRequest evs u).1 ≠ some false) := by
  have hfalse := HandleRequest_false_iff u evs
  have hcomplete : ¬ overBudgetTick u evs →
      ∀ pre post : List Event, evs = pre ++ Event.completed :: post → Event.completed ∉ pre →
        HandleRequest evs u = (some true, addTick^[adds pre] u) := by
    intro hno pre post hevs hcp
    have hno' : ¬ overBudgetTick u pre := fun hp =>
      hno (by rw [hevs]; exact overBudgetTick_append u pre _ hp)
    rw [hevs, HandleRequest_complete u pre post hcp hno']
  refine ⟨⟨rfl, ?_, fun k hk => iterate_addTick_eq k u hk⟩, hfalse, ?_, ?_, hcomplete, ?_, ?_⟩
  · intro h
    rw [addTick_TimeUsed]
    unfold uint64Modulus at h
    omega
  · rintro ⟨hp, pre, b, post, hevs, hc, hlt⟩
    obtain ⟨pre', b', post', hevs', hc', hno', hlt'⟩ :=
      overBudgetTick_first u evs pre.length pre b post (le_refl _) hevs hc hlt
    refine ⟨pre', b', post', hevs', hc', hno', hlt', ?_⟩
    rw [hevs', HandleRequest_kill u pre' b' post' hc' hno' hp hlt']
  · constructor
    · intro h
      have hno : ¬ overBudgetTick u evs := fun hob => by
        rw [hfalse.mpr hob] at h
        simp at h
      refine ⟨?_, hno⟩
      by_contra hc
      rw [HandleRequest_waiting u evs hc hno] at h
      simp at h
    · rintro ⟨hc, hno⟩
      obtain ⟨pre, post, hevs, hcp⟩ := List.eq_append_cons_of_mem hc
      rw [hcomplete hno pre post hevs hcp]
  · intro hp h
    have := (hfalse.mp h).1
    rw [hp] at this
    simp at this
  · intro hle h
    obtain ⟨_, pre, b, post, hevs, _, hlt⟩ := hfalse.mp h
    have hadds : adds evs = adds pre + (1 + b + adds post) := by
      rw [hevs, adds_append, adds]
    have hmod : (u.TimeUsed + (adds pre + 1 + b)) % uint64Modulus ≤
        u.TimeUsed + (adds pre + 1 + b) := Nat.mod_le _ _
    omega

/-- The amended C10 on `RunMockServer`: request 3 of the free user starts with
three seconds used; its own six ticks alone would end at nine, but with the
ticks of requests 1 and 4 its fourth tick loads 12 and the call is cut off.  A
premium user with the same events is served to completion. -/
theorem handleRequest_budget_witness :
    HandleRequest mockRequest3 { ID := 0, IsPremium := false, TimeUsed := 3 } =
      (some false, { ID := 0, IsPremium := false, TimeUsed := 12 }) ∧
    (HandleRequest mockRequest3 { ID := 0, IsPremium := false, TimeUsed := 3 }).1 = some false ∧
    (HandleRequest mockRequest3 { ID := 1, IsPremium := true, TimeUsed := 3 }).1 = some true :=
  ⟨by decide,
    (handleRequest_budget { ID := 0, IsPremium := false, TimeUsed := 3 } mockRequest3).2.1.mpr
      ⟨rfl, [.other, .tick 0, .other, .tick 0, .other, .other, .tick 0, .other], 0,
        [.other, .tick 0, .other, .tick 0, .completed], rfl, by decide, by decide⟩,
    (handleRequest_budget { ID := 1, IsPremium := true, TimeUsed := 3 } mockRequest3).2.2.2.1.mpr
      ⟨by decide, fun h => absurd h.1 (by decide)⟩⟩

end LimitServiceTime
